import Mathlib

/-!
# Verification of the promtail client core (`clients/pkg/promtail/client/client.go`)

A shallow embedding of the reliable-delivery core of the log-shipping client:
per-tenant size-bounded batching (`runSendSide`), the WAL startup replay
(`replayWAL`), the retrying sender (`sendBatch` / `send`), tenant resolution
(`getTenantID`) and the WAL consumer (`clientConsumer`).

Collaborators that live outside the embedded file (the `batch` type, the dskit
backoff, the HTTP transport, the WAL reader) are modelled from the spec or
abstracted as inputs (attempt outcomes, decoded WAL records), as noted on each
definition.
-/

namespace LokiClient

/-- A label set: an association list from label name to label value
(`model.LabelSet` in the source). -/
abbrev LabelSet := List (String × String)

/-- A bare log line with its timestamp (`logproto.Entry`). Time is modelled as
an integer number of time units. -/
structure InnerEntry where
  timestamp : Int
  line : String
deriving DecidableEq, Repr

/-- A log entry tagged with labels (`api.Entry`). -/
structure Entry where
  labels : LabelSet
  entry : InnerEntry
deriving DecidableEq, Repr

/-- Association-list lookup (maps in the source are Go maps; only
lookup/insert semantics are relevant). -/
def alookup {β : Type} (k : String) : List (String × β) → Option β
  | [] => none
  | (k', v) :: rest => if k' = k then some v else alookup k rest

/-- Association-list insert-or-update, mirroring Go map assignment. -/
def aupsert {β : Type} (k : String) (v : β) : List (String × β) → List (String × β)
  | [] => [(k, v)]
  | (k', v') :: rest => if k' = k then (k, v) :: rest else (k', v') :: aupsert k v rest

/-- Association-list removal, mirroring Go `delete`. -/
def aremove {β : Type} (k : String) : List (String × β) → List (String × β)
  | [] => []
  | (k', v') :: rest => if k' = k then rest else (k', v') :: aremove k rest

/-- Lookup in the consumer's reference table (keys are `uint64` series refs,
modelled as `Nat`). -/
def rlookup {β : Type} (k : Nat) : List (Nat × β) → Option β
  | [] => none
  | (k', v) :: rest => if k' = k then some v else rlookup k rest

/-- Insert-or-update in the reference table. -/
def rupsert {β : Type} (k : Nat) (v : β) : List (Nat × β) → List (Nat × β)
  | [] => [(k, v)]
  | (k', v') :: rest => if k' = k then (k, v) :: rest else (k', v') :: rupsert k v rest

/-- The label reserved to override the tenant ID (`ReservedLabelTenantID`). -/
def ReservedLabelTenantID : String := "__tenant_id__"

/-- `getTenantID` (client.go 555-569): the entry's reserved label overrides the
statically configured tenant ID; with neither, the tenant is the empty string. -/
def getTenantID (cfgTenantID : String) (labels : LabelSet) : String :=
  match alookup ReservedLabelTenantID labels with
  | some value => value
  | none => if cfgTenantID ≠ "" then cfgTenantID else ""

/-- The fixed content type sent with every push (`contentType`). -/
def contentType : String := "application/x-protobuf"

/-- The header set built by `send` (client.go 521-536) for one delivery
attempt. `userAgent` abstracts `build.Version` (external collaborator). The
`X-Scope-OrgID` header is added exactly when the tenant ID is non-empty. -/
def sendHeaders (userAgent tenantID : String) : List (String × String) :=
  [("Content-Type", contentType), ("User-Agent", userAgent)] ++
    (if tenantID ≠ "" then [("X-Scope-OrgID", tenantID)] else [])

/-! ## The Batch collaborator -/

/-- Modelled from the spec: the `batch` type lives in a file that is not under
`src/` (only `client.go` is). Spec §3 gives its data model — a mapping from
label set to stream (append-ordered entry list) plus an accumulated byte
size — and spec §8 fixes `sizeBytesAfter(e)` to equal the encoded size after
actually adding `e`, so the tracked size is additive in a per-entry encoded
size, supplied here as an abstract `esize : Entry → Nat`. -/
structure Batch where
  streams : List (LabelSet × List Entry)
  sizeBytes : Nat
deriving DecidableEq, Repr

/-- `newBatch(0)` as used by `client.newBatch` and the consumer: an empty
batch (the `maxStreams` argument is the spec's noted unused gap). -/
def newBatch : Batch := ⟨[], 0⟩

/-- Append an entry to the stream matching its label set, creating the stream
at the end if absent (spec §4.1 `add`, stream identity = label set). -/
def addToStreams (e : Entry) : List (LabelSet × List Entry) → List (LabelSet × List Entry)
  | [] => [(e.labels, [e])]
  | (l, es) :: rest =>
      if l = e.labels then (l, es ++ [e]) :: rest else (l, es) :: addToStreams e rest

/-- Modelled from the spec (§4.1 `add`, successful case): append the entry to
its stream and grow the tracked size by the entry's encoded size. -/
def Batch.addEntry (esize : Entry → Nat) (b : Batch) (e : Entry) : Batch :=
  ⟨addToStreams e b.streams, b.sizeBytes + esize e⟩

/-- Modelled from the spec (§4.1 `replay`): same effect as `add` but with no
admission decision; must not fail. -/
def Batch.replay (esize : Entry → Nat) (b : Batch) (e : Entry) : Batch :=
  b.addEntry esize e

/-- Modelled from the spec (§4.1 `sizeBytesAfter`): the would-be encoded size
if `e` were added; pure, no mutation. -/
def Batch.sizeBytesAfter (esize : Entry → Nat) (b : Batch) (e : Entry) : Nat :=
  b.sizeBytes + esize e

/-- Total number of entries held by a batch, across all its streams. -/
def Batch.entryCount (b : Batch) : Nat :=
  (b.streams.map (fun p => p.2.length)).sum

/-- `batch.add` can fail on rare internal errors (spec §4.1); `client.go`
branches on that error, so the possibility is kept as a per-call oracle
`addOk`. Modelled from the spec: on failure the batch is left unchanged. -/
def batchAdd (esize : Entry → Nat) (addOk : Bool) (b : Batch) (e : Entry) : Batch :=
  if addOk then b.addEntry esize e else b

/-! ## The dispatcher loop (`runSendSide`) -/

/-- The client configuration fields the embedded code reads: the static
tenant ID, the external labels merged into every entry, and the maximum batch
size in bytes (`cfg.TenantID`, `cfg.ExternalLabels`, `cfg.BatchSize`). -/
structure Config where
  tenantID : String
  externalLabels : LabelSet
  batchSize : Nat

/-- `model.LabelSet.Merge` (external collaborator, Go map union where the
argument's keys win): here `ls` (the entry's labels) overrides `ext`. -/
def mergeLabels (ext ls : LabelSet) : LabelSet :=
  ext.filter (fun p => (alookup p.1 ls).isNone) ++ ls

/-- `processEntry` (client.go 585-591): merge the external labels into the
entry when there are any, then resolve the tenant ID from the merged labels. -/
def processEntry (cfg : Config) (e : Entry) : Entry × String :=
  let e' := if cfg.externalLabels.length > 0 then
      { e with labels := mergeLabels cfg.externalLabels e.labels } else e
  (e', getTenantID cfg.tenantID e'.labels)

/-- The observable state of one `runSendSide` loop: the per-tenant open
batches, the ordered log of batches handed to `sendBatch` (with their tenant),
the dropped-entries counter delta, and whether the loop has returned. -/
structure DispatchState where
  batches : List (String × Batch)
  sent : List (String × Batch)
  droppedEntries : Nat
  terminated : Bool
deriving DecidableEq, Repr

/-- The initial dispatcher state: `batches := map[string]*batch{}`. -/
def initDispatch : DispatchState :=
  ⟨[], [], 0, false⟩

/-- One new-entry iteration of `runSendSide` (client.go 376-409). Three paths:
no open batch for the tenant — create one and add the entry, ignoring `add`'s
error; adding would push the size over `cfg.batchSize` — send the open batch
and place the entry in a fresh batch, ignoring `add`'s error; otherwise add to
the open batch, and terminate the loop with a dropped-entries increment when
`add` errors. `addOk` is the oracle for the single `add` call the step makes. -/
def runSendSideStep (esize : Entry → Nat) (cfg : Config) (addOk : Bool)
    (st : DispatchState) (e : Entry) : DispatchState :=
  let pe := processEntry cfg e
  let tenantID := pe.2
  match alookup tenantID st.batches with
  | none =>
      { st with batches := aupsert tenantID (batchAdd esize addOk newBatch pe.1) st.batches }
  | some batch =>
      if batch.sizeBytesAfter esize pe.1 > cfg.batchSize then
        { st with
            sent := st.sent ++ [(tenantID, batch)]
            batches := aupsert tenantID (batchAdd esize addOk newBatch pe.1) st.batches }
      else
        if addOk then
          { st with batches := aupsert tenantID (batch.addEntry esize pe.1) st.batches }
        else
          { st with droppedEntries := st.droppedEntries + 1, terminated := true }

/-- One max-wait-ticker iteration of `runSendSide` (client.go 410-421): send
and remove every open batch whose age reached `cfg.BatchWait`. Ages are not
part of the state, so `aged` abstracts the `batch.age() < c.cfg.BatchWait`
test per tenant. -/
def tickFlush (aged : String → Bool) (st : DispatchState) : DispatchState :=
  { st with
      sent := st.sent ++ st.batches.filter (fun p => aged p.1)
      batches := st.batches.filter (fun p => !aged p.1) }

/-- One event seen by the `runSendSide` select loop: an entry arriving on the
channel (with the oracle for its `add` call) or a ticker firing. -/
inductive DispatchEvent
  | entry (addOk : Bool) (e : Entry)
  | tick (aged : String → Bool)

/-- The `runSendSide` select loop over a finite event trace; a terminated
loop (the `return` in the add-error path) consumes no further events. -/
def runSendSideLoop (esize : Entry → Nat) (cfg : Config) :
    List DispatchEvent → DispatchState → DispatchState
  | [], st => st
  | ev :: rest, st =>
      if st.terminated then st
      else
        match ev with
        | .entry addOk e => runSendSideLoop esize cfg rest (runSendSideStep esize cfg addOk st e)
        | .tick aged => runSendSideLoop esize cfg rest (tickFlush aged st)

/-- The deferred pending-batch flush of `runSendSide` (client.go 364-372):
on loop exit every remaining open batch is sent. -/
def runSendSideFinish (st : DispatchState) : DispatchState :=
  { st with sent := st.sent ++ st.batches, batches := [] }

/-- A whole `runSendSide` run: the loop over the event trace (ending with the
channel close or the add-error return), then the deferred flush. -/
def runSendSide (esize : Entry → Nat) (cfg : Config) (events : List DispatchEvent) :
    DispatchState :=
  runSendSideFinish (runSendSideLoop esize cfg events initDispatch)

/-! ## Startup replay (`replayWAL`) -/

/-- One decoded WAL record (`ingester.DecodeWALRecord` output, a collaborator
outside `src/`): series records mapping a reference to a label set, and
sample records mapping a reference to entries. -/
structure WALRecord where
  series : List (Nat × LabelSet)
  refEntries : List (Nat × List InnerEntry)

/-- The inner entries loop of `replayWAL` (client.go 304-324) for one sample
record whose reference resolved to `labels`: entries whose addition would push
the batch over `maxSize` trigger send-then-fresh-batch and a `break` that
abandons the rest of this record's entries; otherwise the entry is replayed
into the open batch. Returns the open batch and the send log. -/
def replaySamples (esize : Entry → Nat) (maxSize : Nat) (labels : LabelSet) :
    List InnerEntry → Batch → List Batch → Batch × List Batch
  | [], b, sent => (b, sent)
  | ie :: rest, b, sent =>
      let entry : Entry := ⟨labels, ie⟩
      if b.sizeBytesAfter esize entry > maxSize then
        (newBatch.replay esize entry, sent ++ [b])
      else
        replaySamples esize maxSize labels rest (b.replay esize entry) sent

/-- The sample-records loop of `replayWAL` (client.go 302-327): samples whose
reference is absent from the series table are skipped. -/
def replayRefEntries (esize : Entry → Nat) (maxSize : Nat)
    (seriesRecs : List (Nat × LabelSet)) :
    List (Nat × List InnerEntry) → Batch → List Batch → Batch × List Batch
  | [], b, sent => (b, sent)
  | (ref, ies) :: rest, b, sent =>
      match rlookup ref seriesRecs with
      | some l =>
          let r := replaySamples esize maxSize l ies b sent
          replayRefEntries esize maxSize seriesRecs rest r.1 r.2
      | none => replayRefEntries esize maxSize seriesRecs rest b sent

/-- The record loop of `replayWAL` (client.go 292-328): each record first
extends the series table, then its sample records are replayed. -/
def replayRecords (esize : Entry → Nat) (maxSize : Nat) :
    List WALRecord → List (Nat × LabelSet) → Batch → List Batch →
      List (Nat × LabelSet) × Batch × List Batch
  | [], seriesRecs, b, sent => (seriesRecs, b, sent)
  | rec :: rest, seriesRecs, b, sent =>
      let seriesRecs' := rec.series.foldl (fun m p => rupsert p.1 p.2 m) seriesRecs
      let r := replayRefEntries esize maxSize seriesRecs' rec.refEntries b sent
      replayRecords esize maxSize rest seriesRecs' r.1 r.2

/-- Replay of one tenant directory (client.go 290-329): start from an empty
series table and an empty batch, process every record, and finally send
whatever batch remains. Returns the ordered list of batches handed to
`sendBatch` for this tenant. -/
def replayWALTenant (esize : Entry → Nat) (maxSize : Nat)
    (records : List WALRecord) : List Batch :=
  let r := replayRecords esize maxSize records [] newBatch []
  r.2.2 ++ [r.2.1]

/-- Replay outcomes of `replayWAL` as seen by its caller: the error returned
when the client's WAL base directory does not exist (the `os.Stat` error that
`os.IsNotExist` matched, returned verbatim at client.go 262-265), or success
with the per-tenant send logs. -/
inductive ReplayResult
  | statNotExistError
  | ok (sends : List (String × List Batch))
deriving DecidableEq

/-- The filesystem view `replayWAL` observes: whether the client's WAL base
directory exists, and the glob matches inside it (name and whether the match
is a directory). -/
structure WALDirView where
  baseDirExists : Bool
  globMatches : List (String × Bool)

/-- The tenant ID extracted from a tenant directory path
(`tenantDir[strings.LastIndex(tenantDir, "/")+1:]`, client.go 281). -/
def tenantIDOfDir (dir : String) : String :=
  (dir.splitOn "/").getLastD dir

/-- `replayWAL` (client.go 257-332). When the base directory is missing the
stat error is returned as-is; otherwise tenant directories are the glob
matches that are directories, an empty match list is a successful no-op, and
each tenant directory is replayed in turn (`recordsOf` abstracts the WAL
reader, a collaborator outside `src/`, yielding each directory's decoded
records). -/
def replayWAL (esize : Entry → Nat) (maxSize : Nat) (view : WALDirView)
    (recordsOf : String → List WALRecord) : ReplayResult :=
  if !view.baseDirExists then ReplayResult.statNotExistError
  else
    let tenantDirs := (view.globMatches.filter (fun p => p.2)).map (fun p => p.1)
    if view.globMatches.length < 1 then ReplayResult.ok []
    else ReplayResult.ok (tenantDirs.map (fun d =>
      (tenantIDOfDir d, replayWALTenant esize maxSize (recordsOf d))))

/-! ## The retrying sender (`sendBatch` / `send`) -/

/-- The outcome of one `send` call (client.go 521-553): a 2xx response
returns `(status, nil)`; a non-2xx response returns its status with an error;
a request-construction or transport failure returns `(-1, err)`. -/
inductive Outcome
  | success
  | httpError (status : Int)
  | transportError
deriving DecidableEq, Repr

/-- The status value `sendBatch` sees for an attempt's outcome (the 2xx value
itself is never inspected by `sendBatch`, which branches on `err == nil`
first; 200 stands for any 2xx). -/
def statusOf : Outcome → Int
  | .success => 200
  | .httpError s => s
  | .transportError => -1

/-- The abort test of the retry loop (client.go 499): `status > 0 && status
!= 429 && status/100 != 5`, i.e. only 429s, 5xxs and connection-level errors
are retried. -/
def nonRetryable (status : Int) : Bool :=
  status > 0 && status ≠ 429 && status / 100 ≠ 5

/-- The metric updates and results observable from one `sendBatch` call:
counter deltas, the number of `send` attempts performed (one
`requestDuration` observation each), the number of backoff waits, and the
gauge `Set` operations performed on `streamLag`, in order. -/
structure MetricsState where
  encodedBytes : Nat
  sentBytes : Nat
  sentEntries : Nat
  droppedBytes : Nat
  droppedEntries : Nat
  batchRetries : Nat
  backoffWaits : Nat
  sendAttempts : Nat
  streamLagSets : List (LabelSet × Int)
deriving DecidableEq, Repr

/-- A fresh metrics view (all counters at zero, no gauge writes). -/
def initMetrics : MetricsState :=
  ⟨0, 0, 0, 0, 0, 0, 0, 0, []⟩

/-- `Host` and `Client` gauge label names (client.go 47-49). -/
def HostLabel : String := "host"

/-- See `HostLabel`. -/
def ClientLabel : String := "client"

/-- The per-label scan of client.go 475-480: the last occurrence of `name` in
the parsed stream labels wins, defaulting to the empty string. -/
def lastValueOf (lbls : LabelSet) (name : String) : String :=
  lbls.foldl (fun acc p => if p.1 = name then p.2 else acc) ""

/-- The gauge label set built for one stream (client.go 471-490): each
configured stream-lag label projected from the stream's labels, then the host
and the client name. -/
def lagLabelSet (streamLagLabels : List String) (hostVal clientVal : String)
    (lbls : LabelSet) : LabelSet :=
  streamLagLabels.map (fun lbl => (lbl, lastValueOf lbls lbl)) ++
    [(HostLabel, hostVal), (ClientLabel, clientVal)]

/-- The timestamp of a stream's last entry (`s.Entries[len(s.Entries)-1]`,
client.go 491); streams built by `add`/`replay` are never empty, the default
covers the empty list only formally. -/
def lastTimestamp (es : List Entry) : Int :=
  (es.getLastD ⟨[], ⟨0, ""⟩⟩).entry.timestamp

/-- The sender configuration the embedded code reads: the bound on backoff
retries (`cfg.BackoffConfig.MaxRetries`, via the dskit backoff collaborator),
the configured stream-lag labels, the endpoint host and the client name. -/
structure SendConfig where
  maxRetries : Nat
  streamLagLabels : List String
  host : String
  clientName : String

/-- The success branch of `sendBatch` (client.go 459-494): bump the sent
counters and set the lag gauge of every stream of the batch to now minus the
timestamp of that stream's last entry. -/
def successUpdate (cfg : SendConfig) (bufBytes entriesCount : Nat) (b : Batch)
    (now : Int) (ms : MetricsState) : MetricsState :=
  { ms with
      sentBytes := ms.sentBytes + bufBytes
      sentEntries := ms.sentEntries + entriesCount
      streamLagSets := ms.streamLagSets ++ b.streams.map (fun s =>
        (lagLabelSet cfg.streamLagLabels cfg.host cfg.clientName s.1,
         now - lastTimestamp s.2)) }

/-- `backoff.Ongoing()` of the dskit collaborator: the context is live (not
modelled; `StopNow` cancellation is out of scope) and either retries are
unlimited (`MaxRetries == 0`) or fewer than `MaxRetries` have happened. -/
def backoffOngoing (maxRetries numRetries : Nat) : Bool :=
  maxRetries == 0 || numRetries < maxRetries

/-- The result of a `sendBatch` call: success, the last error, or — a model
artifact only — the finite attempt-outcome list ran out while the loop wanted
another attempt. -/
inductive SendResult
  | ok
  | err
  | outOfOutcomes
deriving DecidableEq, Repr

/-- The retry loop of `sendBatch` (client.go 452-511): attempt, observe the
duration, return on success, break on a non-retryable status, otherwise bump
the retry counter, wait, and loop while the backoff is ongoing. `outcomes`
supplies each attempt's result in order. -/
def sendLoop (cfg : SendConfig) (bufBytes entriesCount : Nat) (b : Batch) (now : Int) :
    List Outcome → Nat → MetricsState → MetricsState × SendResult
  | [], _, ms => (ms, SendResult.outOfOutcomes)
  | o :: rest, numRetries, ms =>
      let ms := { ms with sendAttempts := ms.sendAttempts + 1 }
      match o with
      | .success => (successUpdate cfg bufBytes entriesCount b now ms, SendResult.ok)
      | o =>
          if nonRetryable (statusOf o) then (ms, SendResult.err)
          else
            let ms := { ms with
                batchRetries := ms.batchRetries + 1
                backoffWaits := ms.backoffWaits + 1 }
            if backoffOngoing cfg.maxRetries (numRetries + 1) then
              sendLoop cfg bufBytes entriesCount b now rest (numRetries + 1) ms
            else (ms, SendResult.err)

/-- `sendBatch` (client.go 441-519). `encodeRes` abstracts `batch.encode()`
(a collaborator outside `src/`): `none` is an encode error — logged and
returned with no metric change — and `some (bufBytes, entriesCount)` is the
encoded payload size and entry count. On an encode success the encoded-bytes
counter rises, the retry loop runs, and a final error bumps the dropped
counters by the payload size and entry count. -/
def sendBatch (cfg : SendConfig) (encodeRes : Option (Nat × Nat)) (b : Batch)
    (now : Int) (outcomes : List Outcome) (ms : MetricsState) :
    MetricsState × SendResult :=
  match encodeRes with
  | none => (ms, SendResult.err)
  | some (bufBytes, entriesCount) =>
      let ms := { ms with encodedBytes := ms.encodedBytes + bufBytes }
      let r := sendLoop cfg bufBytes entriesCount b now outcomes 0 ms
      match r.2 with
      | SendResult.err =>
          ({ r.1 with
              droppedBytes := r.1.droppedBytes + bufBytes
              droppedEntries := r.1.droppedEntries + entriesCount }, SendResult.err)
      | res => (r.1, res)

/-! ## The WAL consumer (`clientConsumer`) -/

/-- The consumer's state (client.go 670-677): the series reference table and
the currently accumulating batch. -/
structure ConsumerState where
  series : List (Nat × LabelSet)
  currentBatch : Batch
deriving DecidableEq, Repr

/-- `newClientConsumer` (client.go 679-688): empty reference table, current
batch `newBatch(0)`. -/
def newClientConsumer : ConsumerState :=
  ⟨[], newBatch⟩

/-- `ConsumeSeries` (client.go 690-693): record/overwrite the reference. -/
def ConsumeSeries (st : ConsumerState) (ref : Nat) (labels : LabelSet) : ConsumerState :=
  { st with series := rupsert ref labels st.series }

/-- `ConsumeEntries` (client.go 695-709): replay each entry of the sample
record into the current batch when the reference is known, otherwise log and
skip. -/
def ConsumeEntries (esize : Entry → Nat) (st : ConsumerState) (ref : Nat)
    (ies : List InnerEntry) : ConsumerState :=
  match rlookup ref st.series with
  | some l =>
      { st with currentBatch := ies.foldl (fun b ie => b.replay esize ⟨l, ie⟩) st.currentBatch }
  | none => st

/-- `SegmentEnd` (client.go 711-719): send the current batch through
`sendBatch` (the closure built at client.go 647-649 resolves the tenant from
the consumer's configuration); exactly when the send returns nil, request
deletion of the segment. The consumer's fields — `currentBatch` included —
are not written. Returns the state, the metric updates, and the segment
number whose deletion was requested, if any. -/
def SegmentEnd (cfg : SendConfig) (encodeRes : Option (Nat × Nat)) (now : Int)
    (outcomes : List Outcome) (ms : MetricsState) (st : ConsumerState)
    (segmentNum : Nat) : ConsumerState × MetricsState × Option Nat :=
  let r := sendBatch cfg encodeRes st.currentBatch now outcomes ms
  match r.2 with
  | SendResult.ok => (st, r.1, some segmentNum)
  | _ => (st, r.1, none)

/-! ## Basic lemmas -/

theorem alookup_mem {β : Type} {k : String} {v : β} :
    ∀ {l : List (String × β)}, alookup k l = some v → (k, v) ∈ l := by
  intro l
  induction l with
  | nil => intro h; simp [alookup] at h
  | cons p rest ih =>
      intro h
      rw [alookup] at h
      by_cases hk : p.1 = k
      · simp [hk] at h
        cases p
        simp_all
      · simp [hk] at h
        exact List.mem_cons_of_mem _ (ih h)

theorem aupsert_mem {β : Type} {k : String} {v : β} {p : String × β} :
    ∀ {l : List (String × β)}, p ∈ aupsert k v l → p = (k, v) ∨ p ∈ l := by
  intro l
  induction l with
  | nil => intro h; simp [aupsert] at h; simp [h]
  | cons q rest ih =>
      intro h
      rw [aupsert] at h
      by_cases hk : q.1 = k
      · simp [hk] at h
        rcases h with h | h
        · left; simp [h]
        · right; exact List.mem_cons_of_mem _ h
      · simp [hk] at h
        rcases h with h | h
        · right; cases q; simp_all
        · rcases ih h with h' | h'
          · left; exact h'
          · right; exact List.mem_cons_of_mem _ h'

theorem alookup_aupsert {β : Type} (k : String) (v : β) :
    ∀ (l : List (String × β)), alookup k (aupsert k v l) = some v := by
  intro l
  induction l with
  | nil => simp [aupsert, alookup]
  | cons q rest ih =>
      rw [aupsert]
      by_cases hk : q.1 = k
      · simp [hk, alookup]
      · simp [hk, alookup, ih]

/-! ## Claim theorems: tenant resolution and headers -/

/-- C8: tenant resolution returns the reserved label's value when present,
otherwise the non-empty configured tenant ID, otherwise the empty string; in
particular the reserved label wins over any configured tenant ID. -/
theorem getTenantID_resolution :
    (∀ (cfgTenantID : String) (labels : LabelSet) (v : String),
        alookup ReservedLabelTenantID labels = some v →
        getTenantID cfgTenantID labels = v) ∧
    (∀ (cfgTenantID : String) (labels : LabelSet),
        alookup ReservedLabelTenantID labels = none → cfgTenantID ≠ "" →
        getTenantID cfgTenantID labels = cfgTenantID) ∧
    (∀ labels : LabelSet,
        alookup ReservedLabelTenantID labels = none →
        getTenantID "" labels = "") := by
  refine ⟨?_, ?_, ?_⟩
  · intro cfg labels v h
    simp [getTenantID, h]
  · intro cfg labels h hne
    simp [getTenantID, h, hne]
  · intro labels h
    simp [getTenantID, h]

/-- Witness for `getTenantID_resolution`: a concrete entry carrying the
reserved label is routed to that tenant despite a configured static ID; one
without it falls back to the static ID, or to the empty string. -/
theorem getTenantID_resolution_witness :
    getTenantID "static" [("__tenant_id__", "t1")] = "t1" ∧
    getTenantID "static" [("job", "x")] = "static" ∧
    getTenantID "" [("job", "x")] = "" :=
  ⟨getTenantID_resolution.1 "static" _ "t1" (by decide),
   getTenantID_resolution.2.1 "static" _ (by decide) (by decide),
   getTenantID_resolution.2.2 _ (by decide)⟩

/-- C9: a delivery attempt's request carries the `X-Scope-OrgID` header with
the tenant ID as value exactly when the tenant ID is non-empty; with an empty
tenant ID no such header is present at all. -/
theorem tenant_header_iff_nonempty :
    ∀ userAgent tenantID : String,
      (("X-Scope-OrgID", tenantID) ∈ sendHeaders userAgent tenantID ↔ tenantID ≠ "") ∧
      (∀ v, ("X-Scope-OrgID", v) ∈ sendHeaders userAgent "" → False) ∧
      (∀ v, ("X-Scope-OrgID", v) ∈ sendHeaders userAgent tenantID → v = tenantID) := by
  intro ua tid
  refine ⟨?_, ?_, ?_⟩
  · constructor
    · intro hmem hempty
      subst hempty
      simp [sendHeaders, contentType] at hmem
    · intro hne
      simp [sendHeaders, hne]
  · intro v hmem
    simp [sendHeaders, contentType] at hmem
  · intro v hmem
    by_cases hne : tid = ""
    · subst hne; simp [sendHeaders, contentType] at hmem
    · simp [sendHeaders, hne, contentType] at hmem
      exact hmem

/-- Witness for `tenant_header_iff_nonempty`: with tenant `"t"` the header is
present; with an empty tenant a header value `"x"` cannot occur. -/
theorem tenant_header_iff_nonempty_witness :
    ("X-Scope-OrgID", "t") ∈ sendHeaders "promtail/2.5" "t" ∧
    (("X-Scope-OrgID", "x") ∈ sendHeaders "promtail/2.5" "" → False) :=
  ⟨(tenant_header_iff_nonempty "promtail/2.5" "t").1.mpr (by decide),
   (tenant_header_iff_nonempty "promtail/2.5" "").2.1 "x"⟩

/-! ## Claim theorems: the consumer's segment handling -/

/-- C3: `SegmentEnd` requests deletion of the segment exactly when sending the
current batch succeeded; when the send fails no deletion is requested and the
segment is left intact. -/
theorem segment_deleted_iff_send_ok :
    ∀ cfg encodeRes now outcomes ms (st : ConsumerState) segmentNum,
      ((SegmentEnd cfg encodeRes now outcomes ms st segmentNum).2.2 = some segmentNum ↔
        (sendBatch cfg encodeRes st.currentBatch now outcomes ms).2 = SendResult.ok) ∧
      ((sendBatch cfg encodeRes st.currentBatch now outcomes ms).2 ≠ SendResult.ok →
        (SegmentEnd cfg encodeRes now outcomes ms st segmentNum).2.2 = none) := by
  intro cfg encodeRes now outcomes ms st segmentNum
  unfold SegmentEnd
  cases h : (sendBatch cfg encodeRes st.currentBatch now outcomes ms).2 <;> simp [h]

/-- Witness for `segment_deleted_iff_send_ok`: a concrete successful send
(one 2xx attempt) requests deletion of segment 3. -/
theorem segment_deleted_iff_send_ok_witness :
    (SegmentEnd ⟨10, [], "h", "c"⟩ (some (4, 1)) 7 [Outcome.success] initMetrics
        ⟨[], newBatch⟩ 3).2.2 = some 3 :=
  (segment_deleted_iff_send_ok ⟨10, [], "h", "c"⟩ (some (4, 1)) 7 [Outcome.success]
      initMetrics ⟨[], newBatch⟩ 3).1.mpr (by rfl)

/-- C4 fails on the code: `SegmentEnd` never resets `currentBatch`, so after a
`SegmentEnd` whose send succeeded the consumer still holds the old batch (here
one entry), not a new empty batch; its entries are re-sent with the next
segment. -/
theorem segmentEnd_keeps_currentBatch :
    ((SegmentEnd ⟨10, [], "h", "c"⟩ (some (1, 1)) 5 [Outcome.success] initMetrics
        ⟨[], newBatch.replay (fun e => e.entry.line.length) ⟨[("job", "x")], ⟨1, "a"⟩⟩⟩
        3).1.currentBatch
      = newBatch.replay (fun e => e.entry.line.length) ⟨[("job", "x")], ⟨1, "a"⟩⟩) ∧
    newBatch.replay (fun e => e.entry.line.length) ⟨[("job", "x")], ⟨1, "a"⟩⟩ ≠ newBatch := by
  exact ⟨rfl, by decide⟩

/-! ## Claim theorems: replay of a missing or empty WAL directory -/

/-- C5 fails on the code in its first half: with the WAL base directory
absent, `replayWAL` returns the `os.Stat` not-exist error rather than
success (client.go 262-265 returns `err` verbatim). The second half holds:
with the directory present but holding no tenant subdirectories, the replay
is a successful no-op. -/
theorem replayWAL_missing_and_empty_dir :
    (∀ (esize : Entry → Nat) maxSize recordsOf globMatches,
        replayWAL esize maxSize ⟨false, globMatches⟩ recordsOf =
          ReplayResult.statNotExistError) ∧
    (∀ (esize : Entry → Nat) maxSize recordsOf (view : WALDirView),
        view.baseDirExists = true →
        (∀ p ∈ view.globMatches, p.2 = false) →
        replayWAL esize maxSize view recordsOf = ReplayResult.ok []) := by
  constructor
  · intro esize maxSize recordsOf globMatches
    simp [replayWAL]
  · intro esize maxSize recordsOf view hdir hnodirs
    have hfilter : view.globMatches.filter (fun p => p.2) = [] := by
      rw [List.filter_eq_nil_iff]
      intro p hp
      simp [hnodirs p hp]
    by_cases hlen : view.globMatches.length < 1
    · simp [replayWAL, hdir, hlen]
    · simp [replayWAL, hdir, hlen, hfilter]

/-- Witness for `replayWAL_missing_and_empty_dir`: an absent directory yields
the stat error; a directory whose only glob match is a plain file yields a
successful empty replay. -/
theorem replayWAL_missing_and_empty_dir_witness :
    replayWAL (fun e => e.entry.line.length) 100 ⟨false, []⟩ (fun _ => []) =
      ReplayResult.statNotExistError ∧
    replayWAL (fun e => e.entry.line.length) 100 ⟨true, [("f", false)]⟩ (fun _ => []) =
      ReplayResult.ok [] :=
  ⟨replayWAL_missing_and_empty_dir.1 (fun e => e.entry.line.length) 100 (fun _ => []) [],
   replayWAL_missing_and_empty_dir.2 (fun e => e.entry.line.length) 100 (fun _ => [])
     ⟨true, [("f", false)]⟩ rfl (by decide)⟩

/-! ## Claim theorems: add-error handling in the dispatcher -/

/-- C10: a failing `batch.add` is fatal (loop return plus a dropped-entries
increment) only on the path adding to an already-open batch with room; on the
first-entry-for-a-tenant path and on the size-overflow path the `add` error is
ignored and the loop goes on (the terminated flag is untouched, and a
terminated loop consumes no further events). -/
theorem add_error_only_fatal_in_open_batch :
    ∀ (esize : Entry → Nat) (cfg : Config) (st : DispatchState) (e : Entry),
      (alookup (processEntry cfg e).2 st.batches = none →
        (runSendSideStep esize cfg false st e).terminated = st.terminated ∧
        (runSendSideStep esize cfg false st e).droppedEntries = st.droppedEntries) ∧
      (∀ b, alookup (processEntry cfg e).2 st.batches = some b →
        b.sizeBytesAfter esize (processEntry cfg e).1 > cfg.batchSize →
        (runSendSideStep esize cfg false st e).terminated = st.terminated ∧
        (runSendSideStep esize cfg false st e).droppedEntries = st.droppedEntries ∧
        (runSendSideStep esize cfg false st e).sent =
          st.sent ++ [((processEntry cfg e).2, b)]) ∧
      (∀ b, alookup (processEntry cfg e).2 st.batches = some b →
        ¬ b.sizeBytesAfter esize (processEntry cfg e).1 > cfg.batchSize →
        (runSendSideStep esize cfg false st e).terminated = true ∧
        (runSendSideStep esize cfg false st e).droppedEntries = st.droppedEntries + 1) ∧
      (∀ events, st.terminated = true → runSendSideLoop esize cfg events st = st) := by
  intro esize cfg st e
  refine ⟨?_, ?_, ?_, ?_⟩
  · intro h
    simp [runSendSideStep, h]
  · intro b h hover
    simp [runSendSideStep, h, hover]
  · intro b h hover
    simp [runSendSideStep, h, hover]
  · intro events hterm
    cases events with
    | nil => rfl
    | cons ev rest => simp [runSendSideLoop, hterm]

/-- Witness for `add_error_only_fatal_in_open_batch`: on a concrete state with
an open one-slot batch and room for the entry, a failing `add` terminates the
loop and bumps dropped-entries. -/
theorem add_error_only_fatal_in_open_batch_witness :
    (runSendSideStep (fun e => e.entry.line.length) ⟨"", [], 100⟩ false
        ⟨[("", newBatch)], [], 0, false⟩ ⟨[("job", "x")], ⟨1, "a"⟩⟩).terminated = true ∧
    (runSendSideStep (fun e => e.entry.line.length) ⟨"", [], 100⟩ false
        ⟨[("", newBatch)], [], 0, false⟩ ⟨[("job", "x")], ⟨1, "a"⟩⟩).droppedEntries = 0 + 1 :=
  (add_error_only_fatal_in_open_batch (fun e => e.entry.line.length) ⟨"", [], 100⟩
      ⟨[("", newBatch)], [], 0, false⟩ ⟨[("job", "x")], ⟨1, "a"⟩⟩).2.2.1
    newBatch (by rfl) (by decide)

/-! ## Lemmas about the retry loop -/

theorem nonRetryable_iff (s : Int) :
    nonRetryable s = true ↔ 0 < s ∧ s ≠ 429 ∧ ¬(500 ≤ s ∧ s < 600) := by
  simp only [nonRetryable, Bool.and_eq_true, decide_eq_true_eq, gt_iff_lt, ne_eq,
    decide_not, Bool.not_eq_true', decide_eq_false_iff_not]
  omega

theorem sendLoop_nonretryable_abort (cfg : SendConfig) (bufBytes entriesCount : Nat)
    (b : Batch) (now : Int) (s : Int) (rest : List Outcome) (k : Nat) (ms : MetricsState)
    (h0 : 0 < s) (h429 : s ≠ 429) (h5 : ¬(500 ≤ s ∧ s < 600)) :
    sendLoop cfg bufBytes entriesCount b now (Outcome.httpError s :: rest) k ms =
      ({ ms with sendAttempts := ms.sendAttempts + 1 }, SendResult.err) := by
  have hnr : nonRetryable s = true := (nonRetryable_iff s).mpr ⟨h0, h429, h5⟩
  simp [sendLoop, statusOf, hnr]

theorem retryable_nonRetryable_false {s : Int}
    (h : s = -1 ∨ s = 429 ∨ (500 ≤ s ∧ s < 600)) : nonRetryable s = false := by
  refine Bool.eq_false_iff.mpr ?_
  rw [ne_eq, nonRetryable_iff]
  omega

theorem sendLoop_retryable_continue (cfg : SendConfig) (bufBytes entriesCount : Nat)
    (b : Batch) (now : Int) (o : Outcome) (rest : List Outcome) (k : Nat)
    (ms : MetricsState) (hne : o ≠ Outcome.success)
    (hstat : statusOf o = -1 ∨ statusOf o = 429 ∨ (500 ≤ statusOf o ∧ statusOf o < 600))
    (hbudget : backoffOngoing cfg.maxRetries (k + 1) = true) :
    sendLoop cfg bufBytes entriesCount b now (o :: rest) k ms =
      sendLoop cfg bufBytes entriesCount b now rest (k + 1)
        { ms with sendAttempts := ms.sendAttempts + 1,
                  batchRetries := ms.batchRetries + 1,
                  backoffWaits := ms.backoffWaits + 1 } := by
  have hnr := retryable_nonRetryable_false hstat
  cases o with
  | success => exact absurd rfl hne
  | httpError s => simp [sendLoop, statusOf] at hnr ⊢; simp [hnr, hbudget]
  | transportError => simp [sendLoop, statusOf] at hnr ⊢; simp [hnr, hbudget]

theorem sendLoop_retryable_exhausted (cfg : SendConfig) (bufBytes entriesCount : Nat)
    (b : Batch) (now : Int) (o : Outcome) (rest : List Outcome) (k : Nat)
    (ms : MetricsState) (hne : o ≠ Outcome.success)
    (hstat : statusOf o = -1 ∨ statusOf o = 429 ∨ (500 ≤ statusOf o ∧ statusOf o < 600))
    (hbudget : backoffOngoing cfg.maxRetries (k + 1) = false) :
    sendLoop cfg bufBytes entriesCount b now (o :: rest) k ms =
      ({ ms with sendAttempts := ms.sendAttempts + 1,
                 batchRetries := ms.batchRetries + 1,
                 backoffWaits := ms.backoffWaits + 1 }, SendResult.err) := by
  have hnr := retryable_nonRetryable_false hstat
  cases o with
  | success => exact absurd rfl hne
  | httpError s => simp [sendLoop, statusOf] at hnr ⊢; simp [hnr, hbudget]
  | transportError => simp [sendLoop, statusOf] at hnr ⊢; simp [hnr, hbudget]

theorem sendLoop_success_head (cfg : SendConfig) (bufBytes entriesCount : Nat)
    (b : Batch) (now : Int) (rest : List Outcome) (k : Nat) (ms : MetricsState) :
    sendLoop cfg bufBytes entriesCount b now (Outcome.success :: rest) k ms =
      (successUpdate cfg bufBytes entriesCount b now
        { ms with sendAttempts := ms.sendAttempts + 1 }, SendResult.ok) := by
  simp [sendLoop]

/-! ## Claim theorem: retry classification -/

/-- C2: the retry loop of `sendBatch` retries an attempt exactly when its
outcome is retryable — status 429, any 5xx, or a transport-level error (status
-1) — bumping the retry counter and performing a backoff wait before each
retry while the backoff budget is ongoing; a success returns at once, and any
other non-2xx status aborts on the spot with zero retries, zero waits and the
error as result. -/
theorem sendBatch_retry_classification :
    ∀ (cfg : SendConfig) (bufBytes entriesCount : Nat) (b : Batch) (now : Int)
      (rest : List Outcome) (k : Nat) (ms : MetricsState),
      (∀ s : Int, 0 < s → s ≠ 429 → ¬(500 ≤ s ∧ s < 600) →
        sendLoop cfg bufBytes entriesCount b now (Outcome.httpError s :: rest) k ms =
          ({ ms with sendAttempts := ms.sendAttempts + 1 }, SendResult.err)) ∧
      (∀ o : Outcome, o ≠ Outcome.success →
        (statusOf o = -1 ∨ statusOf o = 429 ∨ (500 ≤ statusOf o ∧ statusOf o < 600)) →
        backoffOngoing cfg.maxRetries (k + 1) = true →
        sendLoop cfg bufBytes entriesCount b now (o :: rest) k ms =
          sendLoop cfg bufBytes entriesCount b now rest (k + 1)
            { ms with sendAttempts := ms.sendAttempts + 1,
                      batchRetries := ms.batchRetries + 1,
                      backoffWaits := ms.backoffWaits + 1 }) ∧
      (∀ o : Outcome, o ≠ Outcome.success →
        (statusOf o = -1 ∨ statusOf o = 429 ∨ (500 ≤ statusOf o ∧ statusOf o < 600)) →
        backoffOngoing cfg.maxRetries (k + 1) = false →
        sendLoop cfg bufBytes entriesCount b now (o :: rest) k ms =
          ({ ms with sendAttempts := ms.sendAttempts + 1,
                     batchRetries := ms.batchRetries + 1,
                     backoffWaits := ms.backoffWaits + 1 }, SendResult.err)) ∧
      sendLoop cfg bufBytes entriesCount b now (Outcome.success :: rest) k ms =
        (successUpdate cfg bufBytes entriesCount b now
          { ms with sendAttempts := ms.sendAttempts + 1 }, SendResult.ok) := by
  intro cfg bufBytes entriesCount b now rest k ms
  exact ⟨fun s h0 h429 h5 =>
      sendLoop_nonretryable_abort cfg bufBytes entriesCount b now s rest k ms h0 h429 h5,
    fun o hne hstat hb =>
      sendLoop_retryable_continue cfg bufBytes entriesCount b now o rest k ms hne hstat hb,
    fun o hne hstat hb =>
      sendLoop_retryable_exhausted cfg bufBytes entriesCount b now o rest k ms hne hstat hb,
    sendLoop_success_head cfg bufBytes entriesCount b now rest k ms⟩

/-- Witness for `sendBatch_retry_classification`: a mocked 400 aborts at once
with zero retries; a mocked 500 with budget remaining retries. -/
theorem sendBatch_retry_classification_witness :
    (sendLoop ⟨10, [], "h", "c"⟩ 4 1 newBatch 7 [Outcome.httpError 400] 0 initMetrics =
      ({ initMetrics with sendAttempts := initMetrics.sendAttempts + 1 }, SendResult.err)) ∧
    (sendLoop ⟨10, [], "h", "c"⟩ 4 1 newBatch 7 [Outcome.httpError 500, Outcome.success] 0
        initMetrics =
      sendLoop ⟨10, [], "h", "c"⟩ 4 1 newBatch 7 [Outcome.success] 1
        { initMetrics with sendAttempts := initMetrics.sendAttempts + 1,
                           batchRetries := initMetrics.batchRetries + 1,
                           backoffWaits := initMetrics.backoffWaits + 1 }) :=
  ⟨(sendBatch_retry_classification ⟨10, [], "h", "c"⟩ 4 1 newBatch 7 [] 0 initMetrics).1
      400 (by decide) (by decide) (by decide),
   (sendBatch_retry_classification ⟨10, [], "h", "c"⟩ 4 1 newBatch 7 [Outcome.success] 0
      initMetrics).2.1 (Outcome.httpError 500) (by decide)
      (Or.inr (Or.inr (by constructor <;> decide))) (by decide)⟩

/-! ## Lemmas about the sender's metric updates -/

theorem sendLoop_dropped_unchanged (cfg : SendConfig) (bufBytes entriesCount : Nat)
    (b : Batch) (now : Int) :
    ∀ (outcomes : List Outcome) (k : Nat) (ms : MetricsState),
      (sendLoop cfg bufBytes entriesCount b now outcomes k ms).1.droppedBytes =
        ms.droppedBytes ∧
      (sendLoop cfg bufBytes entriesCount b now outcomes k ms).1.droppedEntries =
        ms.droppedEntries := by
  intro outcomes
  induction outcomes with
  | nil => intro k ms; simp [sendLoop]
  | cons o rest ih =>
      intro k ms
      cases o with
      | success => simp [sendLoop, successUpdate]
      | httpError s =>
          by_cases hnr : nonRetryable (statusOf (Outcome.httpError s)) = true
          · simp [sendLoop, statusOf] at hnr ⊢
            simp [hnr]
          · simp only [Bool.not_eq_true] at hnr
            simp [sendLoop, statusOf] at hnr ⊢
            by_cases hb : backoffOngoing cfg.maxRetries (k + 1) = true
            · simp [hnr, hb]
              exact ih (k + 1) _
            · simp only [Bool.not_eq_true] at hb
              simp [hnr, hb]
      | transportError =>
          have hnr : nonRetryable (statusOf Outcome.transportError) = false := by decide
          simp [sendLoop, statusOf] at hnr ⊢
          by_cases hb : backoffOngoing cfg.maxRetries (k + 1) = true
          · simp [hnr, hb]
            exact ih (k + 1) _
          · simp only [Bool.not_eq_true] at hb
            simp [hnr, hb]

theorem sendLoop_ok_effects (cfg : SendConfig) (bufBytes entriesCount : Nat)
    (b : Batch) (now : Int) :
    ∀ (outcomes : List Outcome) (k : Nat) (ms : MetricsState),
      (sendLoop cfg bufBytes entriesCount b now outcomes k ms).2 = SendResult.ok →
      (sendLoop cfg bufBytes entriesCount b now outcomes k ms).1.sentBytes =
          ms.sentBytes + bufBytes ∧
        (sendLoop cfg bufBytes entriesCount b now outcomes k ms).1.sentEntries =
          ms.sentEntries + entriesCount ∧
        (sendLoop cfg bufBytes entriesCount b now outcomes k ms).1.streamLagSets =
          ms.streamLagSets ++ b.streams.map (fun s =>
            (lagLabelSet cfg.streamLagLabels cfg.host cfg.clientName s.1,
             now - lastTimestamp s.2)) := by
  intro outcomes
  induction outcomes with
  | nil => intro k ms h; simp [sendLoop] at h
  | cons o rest ih =>
      intro k ms h
      cases o with
      | success => simp [sendLoop, successUpdate] at h ⊢
      | httpError s =>
          by_cases hnr : nonRetryable (statusOf (Outcome.httpError s)) = true
          · simp [sendLoop, statusOf] at hnr h
            simp [hnr] at h
          · simp only [Bool.not_eq_true] at hnr
            simp [sendLoop, statusOf] at hnr h ⊢
            by_cases hb : backoffOngoing cfg.maxRetries (k + 1) = true
            · simp [hnr, hb] at h ⊢
              exact ih (k + 1) _ h
            · simp only [Bool.not_eq_true] at hb
              simp [hnr, hb] at h
      | transportError =>
          have hnr : nonRetryable (statusOf Outcome.transportError) = false := by decide
          simp [sendLoop, statusOf] at hnr h ⊢
          by_cases hb : backoffOngoing cfg.maxRetries (k + 1) = true
          · simp [hnr, hb] at h ⊢
            exact ih (k + 1) _ h
          · simp only [Bool.not_eq_true] at hb
            simp [hnr, hb] at h

/-! ## Claim theorems: dropped and sent metrics -/

/-- C6 as stated is false on the code: a batch lost to an *encode* failure
(here one holding an entry) yields an error but leaves the dropped-bytes and
dropped-entries counters untouched — `sendBatch` returns at client.go 443-446
before any dropped-counter update. -/
theorem dropped_metrics_encode_failure_counterexample :
    (sendBatch ⟨10, [], "h", "c"⟩ none
        (newBatch.replay (fun e => e.entry.line.length) ⟨[("job", "x")], ⟨1, "a"⟩⟩) 7 []
        initMetrics).2 = SendResult.err ∧
    (sendBatch ⟨10, [], "h", "c"⟩ none
        (newBatch.replay (fun e => e.entry.line.length) ⟨[("job", "x")], ⟨1, "a"⟩⟩) 7 []
        initMetrics).1.droppedBytes = initMetrics.droppedBytes ∧
    (sendBatch ⟨10, [], "h", "c"⟩ none
        (newBatch.replay (fun e => e.entry.line.length) ⟨[("job", "x")], ⟨1, "a"⟩⟩) 7 []
        initMetrics).1.droppedEntries = initMetrics.droppedEntries :=
  ⟨rfl, rfl, rfl⟩

/-- C6 amended: when the batch encoded successfully and the final send attempt
fails — retry budget exhausted or a non-retryable status — the dropped-bytes
and dropped-entries counters rise by the encoded byte size and the entry
count; an encode failure instead drops the batch with an error and no metric
change at all. -/
theorem dropped_metrics_on_final_send_failure :
    ∀ (cfg : SendConfig) (bufBytes entriesCount : Nat) (b : Batch) (now : Int)
      (outcomes : List Outcome) (ms : MetricsState),
      ((sendBatch cfg (some (bufBytes, entriesCount)) b now outcomes ms).2 =
          SendResult.err →
        (sendBatch cfg (some (bufBytes, entriesCount)) b now outcomes ms).1.droppedBytes =
          ms.droppedBytes + bufBytes ∧
        (sendBatch cfg (some (bufBytes, entriesCount)) b now outcomes ms).1.droppedEntries =
          ms.droppedEntries + entriesCount) ∧
      sendBatch cfg none b now outcomes ms = (ms, SendResult.err) := by
  intro cfg bufBytes entriesCount b now outcomes ms
  constructor
  · intro h
    have hd := sendLoop_dropped_unchanged cfg bufBytes entriesCount b now outcomes 0
      { ms with encodedBytes := ms.encodedBytes + bufBytes }
    rcases hsl : sendLoop cfg bufBytes entriesCount b now outcomes 0
        { ms with encodedBytes := ms.encodedBytes + bufBytes } with ⟨msl, rl⟩
    rw [hsl] at hd
    simp only [sendBatch, hsl] at h ⊢
    cases rl with
    | ok => simp at h
    | err => simpa using hd
    | outOfOutcomes => simp at h
  · rfl

/-- Witness for `dropped_metrics_on_final_send_failure`: a single 400 attempt
on a 4-byte single-entry payload bumps dropped-bytes by 4 and dropped-entries
by 1. -/
theorem dropped_metrics_on_final_send_failure_witness :
    (sendBatch ⟨10, [], "h", "c"⟩ (some (4, 1)) newBatch 7 [Outcome.httpError 400]
        initMetrics).1.droppedBytes = initMetrics.droppedBytes + 4 ∧
    (sendBatch ⟨10, [], "h", "c"⟩ (some (4, 1)) newBatch 7 [Outcome.httpError 400]
        initMetrics).1.droppedEntries = initMetrics.droppedEntries + 1 :=
  (dropped_metrics_on_final_send_failure ⟨10, [], "h", "c"⟩ 4 1 newBatch 7
      [Outcome.httpError 400] initMetrics).1 (by rfl)

/-- C7: a delivery whose attempt came back 2xx returns success, adds the
encoded byte count to sent-bytes and the entry count to sent-entries, and sets
the per-stream lag gauge of every stream of the batch to now minus the
timestamp of that stream's last entry. -/
theorem send_success_updates :
    ∀ (cfg : SendConfig) (bufBytes entriesCount : Nat) (b : Batch) (now : Int)
      (outcomes : List Outcome) (ms : MetricsState),
      (∀ rest, outcomes = Outcome.success :: rest →
        (sendBatch cfg (some (bufBytes, entriesCount)) b now outcomes ms).2 =
          SendResult.ok) ∧
      ((sendBatch cfg (some (bufBytes, entriesCount)) b now outcomes ms).2 =
          SendResult.ok →
        (sendBatch cfg (some (bufBytes, entriesCount)) b now outcomes ms).1.sentBytes =
          ms.sentBytes + bufBytes ∧
        (sendBatch cfg (some (bufBytes, entriesCount)) b now outcomes ms).1.sentEntries =
          ms.sentEntries + entriesCount ∧
        ∀ s ∈ b.streams,
          (lagLabelSet cfg.streamLagLabels cfg.host cfg.clientName s.1,
            now - lastTimestamp s.2) ∈
            (sendBatch cfg (some (bufBytes, entriesCount)) b now outcomes ms).1.streamLagSets) := by
  intro cfg bufBytes entriesCount b now outcomes ms
  constructor
  · intro rest hout
    subst hout
    simp [sendBatch, sendLoop_success_head]
  · intro h
    rcases hsl : sendLoop cfg bufBytes entriesCount b now outcomes 0
        { ms with encodedBytes := ms.encodedBytes + bufBytes } with ⟨msl, rl⟩
    simp only [sendBatch, hsl] at h ⊢
    cases rl with
    | ok =>
        have he := sendLoop_ok_effects cfg bufBytes entriesCount b now outcomes 0
          { ms with encodedBytes := ms.encodedBytes + bufBytes } (by rw [hsl])
        rw [hsl] at he
        simp only at he ⊢
        refine ⟨by simpa using he.1, by simpa using he.2.1, ?_⟩
        intro s hs
        rw [he.2.2]
        simp only [List.mem_append, List.mem_map]
        right
        exact ⟨s, hs, rfl⟩
    | err => simp at h
    | outOfOutcomes => simp at h

/-- Witness for `send_success_updates`: one 2xx attempt on a 4-byte payload
with one stream (`job=x`, last entry at time 1, now 7) bumps the sent counters
and writes a lag of 6 for that stream. -/
theorem send_success_updates_witness :
    (sendBatch ⟨10, ["job"], "h", "c"⟩ (some (4, 1))
        (newBatch.replay (fun e => e.entry.line.length) ⟨[("job", "x")], ⟨1, "a"⟩⟩) 7
        [Outcome.success] initMetrics).1.sentBytes = initMetrics.sentBytes + 4 ∧
    (lagLabelSet ["job"] "h" "c" [("job", "x")], 7 - lastTimestamp
        [⟨[("job", "x")], ⟨1, "a"⟩⟩]) ∈
      (sendBatch ⟨10, ["job"], "h", "c"⟩ (some (4, 1))
        (newBatch.replay (fun e => e.entry.line.length) ⟨[("job", "x")], ⟨1, "a"⟩⟩) 7
        [Outcome.success] initMetrics).1.streamLagSets :=
  ⟨((send_success_updates ⟨10, ["job"], "h", "c"⟩ 4 1
      (newBatch.replay (fun e => e.entry.line.length) ⟨[("job", "x")], ⟨1, "a"⟩⟩) 7
      [Outcome.success] initMetrics).2 (by rfl)).1,
   ((send_success_updates ⟨10, ["job"], "h", "c"⟩ 4 1
      (newBatch.replay (fun e => e.entry.line.length) ⟨[("job", "x")], ⟨1, "a"⟩⟩) 7
      [Outcome.success] initMetrics).2 (by rfl)).2.2 ⟨[("job", "x")], [⟨[("job", "x")], ⟨1, "a"⟩⟩]⟩
      (by decide)⟩

/-! ## The batch size invariant -/

/-- A batch within the claimed size discipline: its tracked size is within the
configured bound, or it holds exactly one (necessarily oversized) entry. -/
def goodBatch (maxSize : Nat) (b : Batch) : Prop :=
  b.sizeBytes ≤ maxSize ∨ b.entryCount = 1

/-- Every open batch and every batch handed to `sendBatch` obeys the size
discipline. -/
def DispatchInv (maxSize : Nat) (st : DispatchState) : Prop :=
  (∀ p ∈ st.batches, goodBatch maxSize p.2) ∧ ∀ p ∈ st.sent, goodBatch maxSize p.2

theorem goodBatch_newBatch (maxSize : Nat) : goodBatch maxSize newBatch :=
  Or.inl (Nat.zero_le _)

theorem entryCount_newBatch_add (esize : Entry → Nat) (e : Entry) :
    (newBatch.addEntry esize e).entryCount = 1 := rfl

theorem goodBatch_fresh (maxSize : Nat) (esize : Entry → Nat) (ok : Bool) (e : Entry) :
    goodBatch maxSize (batchAdd esize ok newBatch e) := by
  cases ok with
  | false => exact Or.inl (Nat.zero_le _)
  | true => exact Or.inr (entryCount_newBatch_add esize e)

theorem step_preserves_inv (esize : Entry → Nat) (cfg : Config) (ok : Bool)
    (st : DispatchState) (e : Entry) (hinv : DispatchInv cfg.batchSize st) :
    DispatchInv cfg.batchSize (runSendSideStep esize cfg ok st e) := by
  obtain ⟨hb, hs⟩ := hinv
  cases hlook : alookup (processEntry cfg e).2 st.batches with
  | none =>
      simp only [runSendSideStep, hlook]
      refine ⟨?_, hs⟩
      intro p hp
      rcases aupsert_mem hp with h | h
      · rw [h]; exact goodBatch_fresh _ _ _ _
      · exact hb p h
  | some b =>
      by_cases hover : b.sizeBytesAfter esize (processEntry cfg e).1 > cfg.batchSize
      · simp only [runSendSideStep, hlook, hover, if_pos]
        constructor
        · intro p hp
          rcases aupsert_mem hp with h | h
          · rw [h]; exact goodBatch_fresh _ _ _ _
          · exact hb p h
        · intro p hp
          rcases List.mem_append.mp hp with h | h
          · exact hs p h
          · have : p = ((processEntry cfg e).2, b) := by simpa using h
            rw [this]
            exact hb _ (alookup_mem hlook)
      · cases ok with
        | true =>
            simp only [runSendSideStep, hlook, hover, if_neg, if_pos, ite_false, ite_true]
            refine ⟨?_, hs⟩
            intro p hp
            rcases aupsert_mem hp with h | h
            · rw [h]
              exact Or.inl (by simpa [Batch.addEntry, Batch.sizeBytesAfter] using
                Nat.le_of_not_lt hover)
            · exact hb p h
        | false =>
            simp only [runSendSideStep, hlook, hover, ite_false, ite_true]
            exact ⟨hb, hs⟩

theorem tick_preserves_inv (maxSize : Nat) (aged : String → Bool) (st : DispatchState)
    (hinv : DispatchInv maxSize st) : DispatchInv maxSize (tickFlush aged st) := by
  obtain ⟨hb, hs⟩ := hinv
  constructor
  · intro p hp
    exact hb p (List.mem_filter.mp hp).1
  · intro p hp
    rcases List.mem_append.mp hp with h | h
    · exact hs p h
    · exact hb p (List.mem_filter.mp h).1

theorem loop_preserves_inv (esize : Entry → Nat) (cfg : Config) :
    ∀ (events : List DispatchEvent) (st : DispatchState),
      DispatchInv cfg.batchSize st →
      DispatchInv cfg.batchSize (runSendSideLoop esize cfg events st) := by
  intro events
  induction events with
  | nil => intro st h; exact h
  | cons ev rest ih =>
      intro st h
      by_cases hterm : st.terminated = true
      · simpa [runSendSideLoop, hterm] using h
      · simp only [Bool.not_eq_true] at hterm
        cases ev with
        | entry addOk e =>
            simp only [runSendSideLoop, hterm, Bool.false_eq_true, if_false]
            exact ih _ (step_preserves_inv esize cfg addOk st e h)
        | tick aged =>
            simp only [runSendSideLoop, hterm, Bool.false_eq_true, if_false]
            exact ih _ (tick_preserves_inv cfg.batchSize aged st h)

theorem finish_preserves_inv (maxSize : Nat) (st : DispatchState)
    (hinv : DispatchInv maxSize st) : DispatchInv maxSize (runSendSideFinish st) := by
  obtain ⟨hb, hs⟩ := hinv
  constructor
  · intro p hp
    simp [runSendSideFinish] at hp
  · intro p hp
    rcases List.mem_append.mp hp with h | h
    · exact hs p h
    · exact hb p h

/-! ## The replay size invariant -/

theorem replaySamples_inv (esize : Entry → Nat) (maxSize : Nat) (labels : LabelSet) :
    ∀ (ies : List InnerEntry) (b : Batch) (sent : List Batch),
      goodBatch maxSize b → (∀ x ∈ sent, goodBatch maxSize x) →
      goodBatch maxSize (replaySamples esize maxSize labels ies b sent).1 ∧
      ∀ x ∈ (replaySamples esize maxSize labels ies b sent).2, goodBatch maxSize x := by
  intro ies
  induction ies with
  | nil =>
      intro b sent hb hsent
      exact ⟨hb, hsent⟩
  | cons ie rest ih =>
      intro b sent hb hsent
      by_cases hover : Batch.sizeBytesAfter esize b ⟨labels, ie⟩ > maxSize
      · simp only [replaySamples, hover, if_pos]
        refine ⟨Or.inr (entryCount_newBatch_add esize _), ?_⟩
        intro x hx
        rcases List.mem_append.mp hx with h | h
        · exact hsent x h
        · rw [List.mem_singleton.mp h]; exact hb
      · simp only [replaySamples, hover, if_neg, ite_false]
        exact ih _ _
          (Or.inl (by simpa [Batch.replay, Batch.addEntry, Batch.sizeBytesAfter] using
            Nat.le_of_not_lt hover))
          hsent

theorem replayRefEntries_inv (esize : Entry → Nat) (maxSize : Nat)
    (seriesRecs : List (Nat × LabelSet)) :
    ∀ (samples : List (Nat × List InnerEntry)) (b : Batch) (sent : List Batch),
      goodBatch maxSize b → (∀ x ∈ sent, goodBatch maxSize x) →
      goodBatch maxSize (replayRefEntries esize maxSize seriesRecs samples b sent).1 ∧
      ∀ x ∈ (replayRefEntries esize maxSize seriesRecs samples b sent).2,
        goodBatch maxSize x := by
  intro samples
  induction samples with
  | nil => intro b sent hb hsent; exact ⟨hb, hsent⟩
  | cons p rest ih =>
      intro b sent hb hsent
      obtain ⟨ref, ies⟩ := p
      cases hl : rlookup ref seriesRecs with
      | none => simpa [replayRefEntries, hl] using ih b sent hb hsent
      | some l =>
          have h1 := replaySamples_inv esize maxSize l ies b sent hb hsent
          simpa [replayRefEntries, hl] using ih _ _ h1.1 h1.2

theorem replayRecords_inv (esize : Entry → Nat) (maxSize : Nat) :
    ∀ (records : List WALRecord) (seriesRecs : List (Nat × LabelSet)) (b : Batch)
      (sent : List Batch),
      goodBatch maxSize b → (∀ x ∈ sent, goodBatch maxSize x) →
      goodBatch maxSize (replayRecords esize maxSize records seriesRecs b sent).2.1 ∧
      ∀ x ∈ (replayRecords esize maxSize records seriesRecs b sent).2.2,
        goodBatch maxSize x := by
  intro records
  induction records with
  | nil => intro seriesRecs b sent hb hsent; exact ⟨hb, hsent⟩
  | cons rec rest ih =>
      intro seriesRecs b sent hb hsent
      have h1 := replayRefEntries_inv esize maxSize
        (rec.series.foldl (fun m p => rupsert p.1 p.2 m) seriesRecs)
        rec.refEntries b sent hb hsent
      simpa [replayRecords] using ih _ _ _ h1.1 h1.2

theorem replayWALTenant_inv (esize : Entry → Nat) (maxSize : Nat)
    (records : List WALRecord) :
    ∀ b ∈ replayWALTenant esize maxSize records, goodBatch maxSize b := by
  intro b hb
  have h := replayRecords_inv esize maxSize records [] newBatch []
    (goodBatch_newBatch maxSize) (by intro x hx; simp at hx)
  rcases List.mem_append.mp hb with hmem | hmem
  · exact h.2 b hmem
  · rw [List.mem_singleton.mp hmem]; exact h.1

theorem step_overflow_behavior (esize : Entry → Nat) (cfg : Config)
    (st : DispatchState) (e : Entry) (b : Batch)
    (hlook : alookup (processEntry cfg e).2 st.batches = some b)
    (hover : b.sizeBytesAfter esize (processEntry cfg e).1 > cfg.batchSize) :
    (runSendSideStep esize cfg true st e).sent =
      st.sent ++ [((processEntry cfg e).2, b)] ∧
    alookup (processEntry cfg e).2 (runSendSideStep esize cfg true st e).batches =
      some (newBatch.addEntry esize (processEntry cfg e).1) := by
  refine ⟨?_, ?_⟩
  · simp [runSendSideStep, hlook, hover]
  · simp only [runSendSideStep, hlook, hover, if_pos, batchAdd, if_true]
    exact alookup_aupsert _ _ _

theorem replaySamples_overflow (esize : Entry → Nat) (maxSize : Nat)
    (labels : LabelSet) (ie : InnerEntry) (rest : List InnerEntry) (b : Batch)
    (sent : List Batch)
    (hover : b.sizeBytesAfter esize ⟨labels, ie⟩ > maxSize) :
    replaySamples esize maxSize labels (ie :: rest) b sent =
      (newBatch.replay esize ⟨labels, ie⟩, sent ++ [b]) := by
  simp [replaySamples, hover]

/-! ## Claim theorem: flush before overflow, size bound -/

/-- C1: in the live dispatcher, an entry whose addition would push the open
batch past the configured size causes that batch to be sent first and the
entry to be placed whole into a freshly created batch; every batch the
dispatcher holds or sends — and likewise every batch sent during startup
replay — respects the size bound except a batch holding a single oversized
entry; and the replay loop flushes-then-places in the same way. -/
theorem batch_flush_before_overflow :
    (∀ (esize : Entry → Nat) (cfg : Config) (events : List DispatchEvent),
        DispatchInv cfg.batchSize (runSendSide esize cfg events)) ∧
    (∀ (esize : Entry → Nat) (cfg : Config) (st : DispatchState) (e : Entry) (b : Batch),
        alookup (processEntry cfg e).2 st.batches = some b →
        b.sizeBytesAfter esize (processEntry cfg e).1 > cfg.batchSize →
        (runSendSideStep esize cfg true st e).sent =
          st.sent ++ [((processEntry cfg e).2, b)] ∧
        alookup (processEntry cfg e).2 (runSendSideStep esize cfg true st e).batches =
          some (newBatch.addEntry esize (processEntry cfg e).1)) ∧
    (∀ (esize : Entry → Nat) (maxSize : Nat) (records : List WALRecord),
        ∀ b ∈ replayWALTenant esize maxSize records, goodBatch maxSize b) ∧
    (∀ (esize : Entry → Nat) (maxSize : Nat) (labels : LabelSet) (ie : InnerEntry)
        (rest : List InnerEntry) (b : Batch) (sent : List Batch),
        b.sizeBytesAfter esize ⟨labels, ie⟩ > maxSize →
        replaySamples esize maxSize labels (ie :: rest) b sent =
          (newBatch.replay esize ⟨labels, ie⟩, sent ++ [b])) := by
  refine ⟨?_, ?_, ?_, ?_⟩
  · intro esize cfg events
    refine finish_preserves_inv cfg.batchSize _ (loop_preserves_inv esize cfg events
      initDispatch ⟨?_, ?_⟩)
    · intro p hp; simp [initDispatch] at hp
    · intro p hp; simp [initDispatch] at hp
  · intro esize cfg st e b hlook hover
    exact step_overflow_behavior esize cfg st e b hlook hover
  · intro esize maxSize records
    exact replayWALTenant_inv esize maxSize records
  · intro esize maxSize labels ie rest b sent hover
    exact replaySamples_overflow esize maxSize labels ie rest b sent hover

/-- Witness for `batch_flush_before_overflow`: with a 3-byte bound and an open
2-byte batch, a 2-byte entry triggers send-then-fresh-singleton on both the
live path (the sent log gains the old batch and the open batch becomes the
one-entry fresh batch) and the replay path. -/
theorem batch_flush_before_overflow_witness :
    DispatchInv 3 (runSendSide (fun e => e.entry.line.length) ⟨"", [], 3⟩ []) ∧
    ((runSendSideStep (fun e => e.entry.line.length) ⟨"", [], 3⟩ true
        ⟨[("", ⟨[([("job", "x")], [⟨[("job", "x")], ⟨1, "ab"⟩⟩])], 2⟩)], [], 0, false⟩
        ⟨[("job", "x")], ⟨2, "cd"⟩⟩).sent =
      [] ++ [("", ⟨[([("job", "x")], [⟨[("job", "x")], ⟨1, "ab"⟩⟩])], 2⟩)] ∧
      alookup "" (runSendSideStep (fun e => e.entry.line.length) ⟨"", [], 3⟩ true
        ⟨[("", ⟨[([("job", "x")], [⟨[("job", "x")], ⟨1, "ab"⟩⟩])], 2⟩)], [], 0, false⟩
        ⟨[("job", "x")], ⟨2, "cd"⟩⟩).batches =
      some (newBatch.addEntry (fun e => e.entry.line.length) ⟨[("job", "x")], ⟨2, "cd"⟩⟩)) ∧
    replaySamples (fun e => e.entry.line.length) 3 [("job", "x")] [⟨2, "cd"⟩]
        ⟨[([("job", "x")], [⟨[("job", "x")], ⟨1, "ab"⟩⟩])], 2⟩ [] =
      (newBatch.replay (fun e => e.entry.line.length) ⟨[("job", "x")], ⟨2, "cd"⟩⟩,
        [] ++ [⟨[([("job", "x")], [⟨[("job", "x")], ⟨1, "ab"⟩⟩])], 2⟩]) :=
  ⟨batch_flush_before_overflow.1 (fun e => e.entry.line.length) ⟨"", [], 3⟩ [],
   batch_flush_before_overflow.2.1 (fun e => e.entry.line.length) ⟨"", [], 3⟩
     ⟨[("", ⟨[([("job", "x")], [⟨[("job", "x")], ⟨1, "ab"⟩⟩])], 2⟩)], [], 0, false⟩
     ⟨[("job", "x")], ⟨2, "cd"⟩⟩ ⟨[([("job", "x")], [⟨[("job", "x")], ⟨1, "ab"⟩⟩])], 2⟩
     (by rfl) (by decide),
   batch_flush_before_overflow.2.2.2 (fun e => e.entry.line.length) 3 [("job", "x")]
     ⟨2, "cd"⟩ [] ⟨[([("job", "x")], [⟨[("job", "x")], ⟨1, "ab"⟩⟩])], 2⟩ [] (by decide)⟩

end LokiClient
